import Mathlib

/-!
Verification of the mona-openai monitoring layer against its specification.

The development shallowly embeds the interception / analysis-assembly /
stream-reconstruction / sampling / sync-async-bridging layer of the library
(`mona_openai/mona_openai.py` and `mona_openai/util/async_util.py`).

Python values that flow through the layer (request arguments, responses,
telemetry messages) are modelled by the inductive type `Val`, Python dicts by
association lists `List (String × Val)`, timestamps and random draws by
rationals, and exceptions by an explicit `Exn` value carrying kind and
message.  External collaborators (analysis getter, message cleaner, usage
computer, endpoint-specific text extractors, the logger) are parameters of
the embedded functions, exactly as they are injected in the source.
-/

namespace MonaOpenAI

/-- A JSON-like runtime value: the payloads that flow through the
monitoring layer (arguments, responses, telemetry messages). -/
inductive Val where
  | null
  | bool (b : Bool)
  | num (q : ℚ)
  | str (s : String)
  | arr (elems : List Val)
  | obj (fields : List (String × Val))

/-- Python truthiness of a `Val`, used by the source's `if additional_data:`
and `if response:` tests. -/
def Val.truthy : Val → Bool
  | .null => false
  | .bool b => b
  | .num q => q != 0
  | .str s => s != ""
  | .arr l => !l.isEmpty
  | .obj l => !l.isEmpty

/-- Dictionary lookup on an association list (Python `d[k]` / `d.get(k)`). -/
def kget (m : List (String × Val)) (k : String) : Option Val :=
  match m with
  | [] => none
  | (k2, v) :: rest => if k2 = k then some v else kget rest k

/-- Python `d.get(k, default)`. -/
def kgetD (m : List (String × Val)) (k : String) (d : Val) : Val :=
  (kget m k).getD d

/-- Python `response[k]` on a mapping value; `none` models a `KeyError`
or indexing a non-mapping. -/
def Val.item : Val → String → Option Val
  | .obj l, k => kget l k
  | _, _ => none

/-- Source constant `MONA_ARGS_PREFIX = "MONA_"`: the reserved marker of
monitoring-only keyword arguments. -/
def MONA_ARGS_MARKER : String := "MONA_"

/-- Source constant `CONTEXT_ID_ARG_NAME`. -/
def CONTEXT_ID_ARG_NAME : String := "MONA_context_id"

/-- Source constant `EXPORT_TIMESTAMP_ARG_NAME`. -/
def EXPORT_TIMESTAMP_ARG_NAME : String := "MONA_export_timestamp"

/-- Source constant `ADDITIONAL_DATA_ARG_NAME`. -/
def ADDITIONAL_DATA_ARG_NAME : String := "MONA_additional_data"

/-- The dict comprehension `{x: kwargs[x] for x in kwargs if not
x.startswith(MONA_ARGS_PREFIX)}` used both in
`MonitoredOpenAI._get_logging_message` (after a `deepcopy`, which is the
identity in this pure model) and in `inner_super_function`. -/
def stripMonaArgs (kwargs : List (String × Val)) : List (String × Val) :=
  kwargs.filter (fun p => !(p.1.startsWith MONA_ARGS_MARKER))

/-- The keyword arguments `inner_super_function` forwards to the underlying
`create`/`acreate` target (`mona_openai.py` lines 247-258). -/
def forwardedKwargs (kwargs : List (String × Val)) : List (String × Val) :=
  stripMonaArgs kwargs

/-- The module-level `_get_logging_message` of `mona_openai.py` (lines
31-66) before the final `message_cleaner` application: assembles the
telemetry message dict.  `response = Val.null` models the Python `None`. -/
def rawLoggingMessage (apiName : String) (requestInput : List (String × Val))
    (startTime : ℚ) (isException : Bool) (isAsync : Bool)
    (streamStartTime : Option ℚ) (response : Val)
    (analysisGetter : List (String × Val) → Val → Val)
    (additionalData : Val) (now : ℚ) : List (String × Val) :=
  let base : List (String × Val) :=
    [("input", Val.obj requestInput),
     ("latency", Val.num (now - startTime)),
     ("stream_start_latency",
       match streamStartTime with
       | some t => Val.num (t - startTime)
       | none => Val.null),
     ("is_exception", Val.bool isException),
     ("api_name", Val.str apiName),
     ("is_async", Val.bool isAsync)]
  let withAdd :=
    if additionalData.truthy then base ++ [("additional_data", additionalData)]
    else base
  if response.truthy then
    withAdd ++ [("response", response),
                ("analysis", analysisGetter requestInput response)]
  else withAdd

/-- The module-level `_get_logging_message` including the external
`message_cleaner` collaborator. -/
def get_logging_message (apiName : String) (requestInput : List (String × Val))
    (startTime : ℚ) (isException : Bool) (isAsync : Bool)
    (streamStartTime : Option ℚ) (response : Val)
    (analysisGetter : List (String × Val) → Val → Val)
    (messageCleaner : List (String × Val) → List (String × Val))
    (additionalData : Val) (now : ℚ) : List (String × Val) :=
  messageCleaner (rawLoggingMessage apiName requestInput startTime isException
    isAsync streamStartTime response analysisGetter additionalData now)

/-- The classmethod `MonitoredOpenAI._get_logging_message` (lines 157-195)
before the cleaner: strips the `MONA_`-keys out of the kwargs into the
sanitized request input, extracts the caller-supplied additional data, and
delegates to the module-level builder. -/
def cls_get_logging_message (apiName : String)
    (analysisGetter : List (String × Val) → Val → Val)
    (kwargs : List (String × Val)) (startTime : ℚ)
    (isException : Bool) (isAsync : Bool) (streamStartTime : Option ℚ)
    (response : Val) (now : ℚ) : List (String × Val) :=
  let requestInput := stripMonaArgs kwargs
  let additionalData := kgetD kwargs ADDITIONAL_DATA_ARG_NAME (Val.obj [])
  rawLoggingMessage apiName requestInput startTime isException isAsync
    streamStartTime response analysisGetter additionalData now

/-- A Python exception as it crosses the wrapper boundary: its kind (class
name) and message.  Re-raising "unchanged" means the same `Exn` value. -/
structure Exn where
  kind : String
  msg : String

/-- The external collaborators a monitored class closes over: the
endpoint-specific analysis getter (`super()._get_full_analysis`) and message
cleaner (`super()._get_clean_message`). -/
structure Collab where
  analysisGetter : List (String × Val) → Val → Val
  messageCleaner : List (String × Val) → List (String × Val)

/-- Modelled from the spec: `add_conditional_sampling` lives in
`mona_openai/util/func_util.py`, which is not among the provided source
files.  Per spec §4.3 (SamplingGate), `shouldEmit` receives one uniform
random draw in `[0,1)` and returns true iff the draw is less than the
configured sampling ratio. -/
def shouldEmit (rate draw : ℚ) : Bool := draw < rate

/-- One invocation of the sampled logging function: the emitted records (one
record when the sampling gate passes, none otherwise). -/
def sampledLogs (rate draw : ℚ) (c : α) : List α :=
  if shouldEmit rate draw then [c] else []

/-- One call to the logger's export function: the arguments
`_inner_log_message` passes to `export_function` (message, context id,
export timestamp) in `mona_openai.py` lines 221-239. -/
structure LogCall where
  message : List (String × Val)
  contextId : Val
  exportTimestamp : Val

/-- The `_inner_log_message` closure of `_inner_create` (lines 221-239):
builds the cleaned logging message and resolves the context id
(`kwargs.get(CONTEXT_ID_ARG_NAME, response["id"] if response else None)`)
and export timestamp (`kwargs.get(EXPORT_TIMESTAMP_ARG_NAME, start_time)`). -/
def innerLogCall (C : Collab) (apiName : String) (kwargs : List (String × Val))
    (startTime : ℚ) (isException : Bool) (isAsync : Bool)
    (streamStartTime : Option ℚ) (response : Val) (now : ℚ) : LogCall :=
  { message := C.messageCleaner (cls_get_logging_message apiName
      C.analysisGetter kwargs startTime isException isAsync streamStartTime
      response now)
    contextId := kgetD kwargs CONTEXT_ID_ARG_NAME
      (if response.truthy then (response.item "id").getD Val.null
       else Val.null)
    exportTimestamp := kgetD kwargs EXPORT_TIMESTAMP_ARG_NAME
      (Val.num startTime) }

/-- One partial stream chunk, reduced to what the layer extracts from it:
the partial delta text per choice index (`delta_choice_text_getter` applied
to each of the chunk's choices). -/
abbrev Chunk := List (Nat × String)

/-- What a wrapped call returns to the caller: a plain response, the
gathering iterator over the raw chunk sequence, or the re-raised
exception. -/
inductive CallResult where
  | resp (v : Val)
  | streamed (chunks : List Chunk)
  | raised (e : Exn)

/-- The `is_stream = kwargs.get("stream", False)` test of `_inner_create`
(line 213), including Python truthiness. -/
def isStreamCall (kwargs : List (String × Val)) : Bool :=
  (kgetD kwargs "stream" (Val.bool false)).truthy

/-- The `_inner_create` control flow of `mona_openai.py` (lines 197-310) up
to the point where control returns to the caller: dispatch on the stream
flag, invoke the underlying target on the `MONA_`-stripped kwargs, emit the
success record (non-stream) or the exception record (unless suppressed),
and return the response, the wrapped iterator, or re-raise.  The underlying
blocking/suspending target is modelled by `superFn` (non-stream mode) and
`superStreamFn` (stream mode: its raw chunk sequence); `startTime` is the
`time.time()` taken before the call, `logTime` the time at message
assembly, `draw` the sampling gate's uniform draw. -/
def innerCreate (rate : ℚ) (avoidExc : Bool) (C : Collab) (apiName : String)
    (isAsync : Bool)
    (superFn : List (String × Val) → Except Exn Val)
    (superStreamFn : List (String × Val) → Except Exn (List Chunk))
    (kwargs : List (String × Val)) (startTime logTime draw : ℚ) :
    CallResult × List LogCall :=
  if isStreamCall kwargs then
    match superStreamFn (forwardedKwargs kwargs) with
    | .ok chunks => (.streamed chunks, [])
    | .error e =>
        (.raised e,
         if avoidExc then []
         else sampledLogs rate draw
           (innerLogCall C apiName kwargs startTime true isAsync none
             Val.null logTime))
  else
    match superFn (forwardedKwargs kwargs) with
    | .ok v =>
        (.resp v,
         sampledLogs rate draw
           (innerLogCall C apiName kwargs startTime false isAsync none v
             logTime))
    | .error e =>
        (.raised e,
         if avoidExc then []
         else sampledLogs rate draw
           (innerLogCall C apiName kwargs startTime true isAsync none
             Val.null logTime))

/-- Modelled from the spec: the StreamState accumulator of
`ResponseGatheringIterator` (`mona_openai/util/stream_util.py` is not among
the provided source files).  Per spec §4.5 / §3 (StreamState), the partial
delta text of choice `i` is appended to that choice's accumulated text,
keyed by choice index. -/
def updateChoice (st : List (Nat × String)) (i : Nat) (s : String) :
    List (Nat × String) :=
  match st with
  | [] => [(i, s)]
  | (j, t) :: rest =>
      if j = i then (j, t ++ s) :: rest else (j, t) :: updateChoice rest i s

/-- Folding one extracted delta into the stream state. -/
def stepChoice (st : List (Nat × String)) (p : Nat × String) :
    List (Nat × String) :=
  updateChoice st p.1 p.2

/-- Folding one chunk's per-choice deltas into the stream state. -/
def feedChunk (st : List (Nat × String)) (c : Chunk) : List (Nat × String) :=
  c.foldl stepChoice st

/-- Modelled from the spec: the per-choice text accumulated by
`ResponseGatheringIterator` over the whole chunk sequence (spec §4.5: "For
every chunk, extracts the partial delta text per choice index and appends
it to that choice's accumulator in StreamState"). -/
def gatherChunks (chunks : List Chunk) : List (Nat × String) :=
  chunks.foldl feedChunk []

/-- Specification-side view: all delta texts of choice `i`, in arrival
order (chunk order, and within a chunk the listed order). -/
def deltasFor (ps : List (Nat × String)) (i : Nat) : List String :=
  ps.filterMap (fun p => if p.1 = i then some p.2 else none)

/-- Concatenation of a list of strings, left to right. -/
def concatAll (l : List String) : String :=
  l.foldl (fun a b => a ++ b) ""

/-- Specification-side view: the concatenation of choice `i`'s delta texts
over the whole chunk sequence, in arrival order. -/
def concatDeltas (chunks : List Chunk) (i : Nat) : String :=
  concatAll (deltasFor (chunks.flatMap (fun c => c)) i)

/-- Modelled from the spec: the final response synthesized by
`ResponseGatheringIterator` on exhaustion of the source sequence (spec
§4.5: "choices rebuilt from accumulated per-choice text"), with the
endpoint-specific final-choice builder (`base_class._get_final_choice`)
abstract. -/
def synthResponse (finalChoice : Nat → String → Val) (chunks : List Chunk) :
    Val :=
  Val.obj [("choices",
    Val.arr ((gatherChunks chunks).map (fun p => finalChoice p.1 p.2)))]

/-- A full consumption of the gathering iterator by the caller: the chunks
yielded to the caller and the `(finalResponse, streamStartTime)` completion
callback invocations. -/
structure GatherRun where
  yielded : List Chunk
  callbackCalls : List (Val × Option ℚ)

/-- Modelled from the spec: `ResponseGatheringIterator` consumed to
exhaustion (spec §4.5): an identical pass-through of the source chunks, the
stream start time recorded at the first chunk (`firstChunkTime`; absent for
an empty stream), and exactly one completion-callback invocation with the
synthesized final response. -/
def consumeStream (finalChoice : Nat → String → Val) (chunks : List Chunk)
    (firstChunkTime : ℚ) : GatherRun :=
  { yielded := chunks
    callbackCalls :=
      [(synthResponse finalChoice chunks,
        if chunks.isEmpty then none else some firstChunkTime)] }

/-- Association-list update with Python `dict`-merge ordering: an existing
key keeps its position and takes the new value, a new key is appended. -/
def setKey (l : List (String × Val)) (k : String) (v : Val) :
    List (String × Val) :=
  if (kget l k).isSome then
    l.map (fun p => if p.1 = k then (k, v) else p)
  else l ++ [(k, v)]

/-- Python `d | {k: v}` on a mapping value (as in
`final_response | {"usage": ...}` at line 284). -/
def dictMergeOne (v : Val) (k : String) (u : Val) : Val :=
  match v with
  | .obj l => .obj (setKey l k u)
  | other => other

/-- The external collaborators of the stream path: the usage computer
(`get_usage` from `util/tokens_util.py`), the model-parameter extractor
(`get_model_param` from `util/openai_util.py`) and the endpoint-specific
text extractors and final-choice builder of the wrapping class, none of
which are among the provided source files. -/
structure StreamCollab where
  getUsage : Val → List String → List String → Val
  modelParam : List (String × Val) → Val
  promptTexts : List (String × Val) → List String
  responseTexts : Val → List String
  finalChoice : Nat → String → Val

/-- The response assembled by `_stream_done_callback` (lines 277-294):
the synthesized final response merged with the computed usage field,
`final_response | {"usage": get_usage(model=..., prompt_texts=...,
response_texts=...)}`. -/
def streamDoneResponse (S : StreamCollab) (kwargs : List (String × Val))
    (finalResponse : Val) : Val :=
  dictMergeOne finalResponse "usage"
    (S.getUsage (S.modelParam kwargs) (S.promptTexts kwargs)
      (S.responseTexts finalResponse))

/-- The records emitted by one `_stream_done_callback` invocation: it
installs the usage-augmented response and the actual stream start time,
then runs the sampled `log_message(False)`. -/
def streamDoneLogs (rate : ℚ) (C : Collab) (S : StreamCollab)
    (apiName : String) (kwargs : List (String × Val)) (startTime : ℚ)
    (isAsync : Bool) (finalResponse : Val) (actualStreamStart : Option ℚ)
    (now draw : ℚ) : List LogCall :=
  sampledLogs rate draw
    (innerLogCall C apiName kwargs startTime false isAsync actualStreamStart
      (streamDoneResponse S kwargs finalResponse) now)

/-- All records emitted for one whole call attempt: the records emitted
while `_inner_create` runs, plus — when the call returned the gathering
iterator and the caller consumed it to exhaustion — the records emitted by
the completion callback.  `firstChunkTime` is the time of the first chunk,
`streamLogTime` and `streamDraw` the assembly time and sampling draw of the
callback's emission. -/
def wholeCallLogs (rate : ℚ) (avoidExc : Bool) (C : Collab)
    (S : StreamCollab) (apiName : String) (isAsync : Bool)
    (superFn : List (String × Val) → Except Exn Val)
    (superStreamFn : List (String × Val) → Except Exn (List Chunk))
    (kwargs : List (String × Val))
    (startTime logTime draw firstChunkTime streamLogTime streamDraw : ℚ) :
    List LogCall :=
  let r := innerCreate rate avoidExc C apiName isAsync superFn superStreamFn
    kwargs startTime logTime draw
  r.2 ++
    (match r.1 with
     | .streamed chunks =>
         (consumeStream S.finalChoice chunks firstChunkTime).callbackCalls.flatMap
           (fun pc => streamDoneLogs rate C S apiName kwargs startTime
             isAsync pc.1 pc.2 streamLogTime streamDraw)
     | _ => [])

/-- The state of the ambient cooperative scheduler (the asyncio event loop
of the current execution context) when the blocking entry point is
invoked: none active, one active but idle, or one active and already
driving other work. -/
inductive SchedulerState where
  | noScheduler
  | idleScheduler
  | busyScheduler

/-- Which of the three resolution branches of `run_in_an_event_loop`
produced the result. -/
inductive BridgePath where
  | freshRun
  | driveExisting
  | nestedRun

/-- The contract of `asyncio.run(coroutine)` as the bridge relies on it: it
starts a fresh scheduler, runs the task and shuts the scheduler down,
raising `RuntimeError` when a scheduler is already active in the current
execution context. -/
def asyncioRun (s : SchedulerState) (v : α) : Except Unit α :=
  match s with
  | .noScheduler => .ok v
  | .idleScheduler => .error ()
  | .busyScheduler => .error ()

/-- The contract of `asyncio.get_event_loop().run_until_complete(coroutine)`
as the bridge relies on it: drives the active scheduler directly to execute
the task, raising `RuntimeError` when no active scheduler can be driven
(none exists, or it is already running other work). -/
def runUntilComplete (s : SchedulerState) (v : α) : Except Unit α :=
  match s with
  | .noScheduler => .error ()
  | .idleScheduler => .ok v
  | .busyScheduler => .error ()

/-- The contract of `nest_asyncio.apply()` followed by `asyncio.run`: the
installed reentrancy allowance lets the task run as a nested unit of work
inside the already-running scheduler, to completion. -/
def nestedAsyncioRun (v : α) : α := v

/-- The `run_in_an_event_loop` function of `mona_openai/util/async_util.py`
(lines 8-24): try `asyncio.run`; on `RuntimeError` try
`get_event_loop().run_until_complete`; on `RuntimeError` apply
`nest_asyncio` and run nested.  Returns the branch taken and the result. -/
def run_in_an_event_loop (s : SchedulerState) (v : α) : BridgePath × α :=
  match asyncioRun s v with
  | .ok r => (.freshRun, r)
  | .error _ =>
      match runUntilComplete s v with
      | .ok r => (.driveExisting, r)
      | .error _ => (.nestedRun, nestedAsyncioRun v)

/-- Lookup of a choice index in the stream state. -/
def kgetNat (st : List (Nat × String)) (i : Nat) : Option String :=
  match st with
  | [] => none
  | (j, t) :: rest => if j = i then some t else kgetNat rest i

/-- Combining an already-accumulated text with a list of further deltas:
the expected stream-state entry after folding those deltas in. -/
def mergeAcc (o : Option String) (l : List String) : Option String :=
  match o with
  | some t => some (t ++ concatAll l)
  | none => if l = [] then none else some (concatAll l)

/-- The choice indices present in a stream state. -/
def keysOf (st : List (Nat × String)) : List Nat := st.map Prod.fst

/-- A trivial analysis getter used for concrete evaluations. -/
def agNull : List (String × Val) → Val → Val := fun _ _ => Val.null

/-- Concrete collaborators with the identity cleaner, used for concrete
evaluations. -/
def collabId : Collab := { analysisGetter := agNull, messageCleaner := id }

/-- Concrete stream collaborators used for concrete evaluations. -/
def streamCollabFix : StreamCollab :=
  { getUsage := fun _ p r =>
      Val.obj [("total_tokens", Val.num ((p.length + r.length : ℕ) : ℚ))]
    modelParam := fun kwargs => kgetD kwargs "model" Val.null
    promptTexts := fun _ => []
    responseTexts := fun _ => []
    finalChoice := fun i s =>
      Val.obj [("index", Val.num (i : ℚ)), ("text", Val.str s)] }

/-- A concrete underlying non-stream target that succeeds with a fixed
response. -/
def sfnOk : List (String × Val) → Except Exn Val :=
  fun _ => .ok (Val.obj [("id", Val.str "r1"), ("choices", Val.arr [])])

/-- A concrete underlying target that raises `RateLimitError("slow down")`
(spec §8, Scenario B). -/
def sfnErr : List (String × Val) → Except Exn Val :=
  fun _ => .error { kind := "RateLimitError", msg := "slow down" }

/-- A concrete underlying stream target yielding four chunks that append
"a", "b", "c", "d" to choice 0 (spec §8, Scenario C). -/
def ssfnOk : List (String × Val) → Except Exn (List Chunk) :=
  fun _ => .ok [[(0, "a")], [(0, "b")], [(0, "c")], [(0, "d")]]

/-- A concrete underlying stream target that raises while establishing the
stream. -/
def ssfnErr : List (String × Val) → Except Exn (List Chunk) :=
  fun _ => .error { kind := "RateLimitError", msg := "slow down" }

/-- Concrete kwargs of a non-stream call carrying monitoring-only keys. -/
def kwargsFix : List (String × Val) :=
  [("prompt", Val.str "hello"),
   ("MONA_additional_data", Val.obj [("customer_id", Val.str "A531251")]),
   ("MONA_context_id", Val.str "ctx7")]

/-- Concrete kwargs of a non-stream call with no monitoring-only keys. -/
def kwargsPlain : List (String × Val) := [("prompt", Val.str "hello")]

/-- Concrete kwargs of a streaming call. -/
def kwargsStream : List (String × Val) :=
  [("prompt", Val.str "hello"), ("stream", Val.bool true)]

/-- Concrete kwargs supplying an empty `MONA_additional_data` mapping. -/
def kwargsEmptyAdd : List (String × Val) :=
  [("prompt", Val.str "hello"), ("MONA_additional_data", Val.obj [])]

/-- The four chunks of spec §8 Scenario C: each appends one letter of
"abcd" to choice 0. -/
def chunks4 : List Chunk := [[(0, "a")], [(0, "b")], [(0, "c")], [(0, "d")]]

theorem kget_append (l₁ l₂ : List (String × Val)) (k : String) :
    kget (l₁ ++ l₂) k =
      match kget l₁ k with
      | some v => some v
      | none => kget l₂ k := by
  induction l₁ with
  | nil => rfl
  | cons p rest ih =>
      obtain ⟨k2, v⟩ := p
      by_cases h : k2 = k <;> simp [kget, h, ih]

theorem kget_raw_input (apiName : String) (ri : List (String × Val))
    (st : ℚ) (isE isA : Bool) (sst : Option ℚ) (resp : Val)
    (ag : List (String × Val) → Val → Val) (ad : Val) (now : ℚ) :
    kget (rawLoggingMessage apiName ri st isE isA sst resp ag ad now)
      "input" = some (Val.obj ri) := by
  unfold rawLoggingMessage
  cases h : resp.truthy <;> cases h2 : ad.truthy <;>
    simp [h, h2, kget_append, kget]

theorem kget_raw_latency (apiName : String) (ri : List (String × Val))
    (st : ℚ) (isE isA : Bool) (sst : Option ℚ) (resp : Val)
    (ag : List (String × Val) → Val → Val) (ad : Val) (now : ℚ) :
    kget (rawLoggingMessage apiName ri st isE isA sst resp ag ad now)
      "latency" = some (Val.num (now - st)) := by
  unfold rawLoggingMessage
  cases h : resp.truthy <;> cases h2 : ad.truthy <;>
    simp [h, h2, kget_append, kget]

theorem kget_raw_stream_start_latency (apiName : String)
    (ri : List (String × Val)) (st : ℚ) (isE isA : Bool) (sst : Option ℚ)
    (resp : Val) (ag : List (String × Val) → Val → Val) (ad : Val)
    (now : ℚ) :
    kget (rawLoggingMessage apiName ri st isE isA sst resp ag ad now)
      "stream_start_latency" =
      some (match sst with
            | some t => Val.num (t - st)
            | none => Val.null) := by
  unfold rawLoggingMessage
  cases h : resp.truthy <;> cases h2 : ad.truthy <;>
    simp [h, h2, kget_append, kget]

theorem kget_raw_is_exception (apiName : String) (ri : List (String × Val))
    (st : ℚ) (isE isA : Bool) (sst : Option ℚ) (resp : Val)
    (ag : List (String × Val) → Val → Val) (ad : Val) (now : ℚ) :
    kget (rawLoggingMessage apiName ri st isE isA sst resp ag ad now)
      "is_exception" = some (Val.bool isE) := by
  unfold rawLoggingMessage
  cases h : resp.truthy <;> cases h2 : ad.truthy <;>
    simp [h, h2, kget_append, kget]

theorem kget_raw_response (apiName : String) (ri : List (String × Val))
    (st : ℚ) (isE isA : Bool) (sst : Option ℚ) (resp : Val)
    (ag : List (String × Val) → Val → Val) (ad : Val) (now : ℚ) :
    kget (rawLoggingMessage apiName ri st isE isA sst resp ag ad now)
      "response" = if resp.truthy then some resp else none := by
  unfold rawLoggingMessage
  cases h : resp.truthy <;> cases h2 : ad.truthy <;>
    simp [h, h2, kget_append, kget]

theorem kget_raw_additional_data (apiName : String)
    (ri : List (String × Val)) (st : ℚ) (isE isA : Bool) (sst : Option ℚ)
    (resp : Val) (ag : List (String × Val) → Val → Val) (ad : Val)
    (now : ℚ) :
    kget (rawLoggingMessage apiName ri st isE isA sst resp ag ad now)
      "additional_data" = if ad.truthy then some ad else none := by
  unfold rawLoggingMessage
  cases h : resp.truthy <;> cases h2 : ad.truthy <;>
    simp [h, h2, kget_append, kget]

theorem sampledLogs_pass (rate draw : ℚ) (c : α)
    (h : shouldEmit rate draw = true) : sampledLogs rate draw c = [c] := by
  simp [sampledLogs, h]

theorem sampledLogs_skip (rate draw : ℚ) (c : α)
    (h : shouldEmit rate draw = false) : sampledLogs rate draw c = [] := by
  simp [sampledLogs, h]

theorem foldl_append_str (l : List String) (a : String) :
    l.foldl (fun x y => x ++ y) a = a ++ concatAll l := by
  induction l generalizing a with
  | nil => simp [concatAll]
  | cons b rest ih =>
      show rest.foldl _ (a ++ b) = a ++ concatAll (b :: rest)
      rw [ih (a ++ b)]
      have h : concatAll (b :: rest) = ("" ++ b) ++ concatAll rest := by
        show rest.foldl _ ("" ++ b) = _
        rw [ih ("" ++ b)]
      rw [h, String.empty_append, String.append_assoc]

theorem concatAll_cons (b : String) (l : List String) :
    concatAll (b :: l) = b ++ concatAll l := by
  show l.foldl _ ("" ++ b) = _
  rw [foldl_append_str, String.empty_append]

theorem kgetNat_updateChoice (st : List (Nat × String)) (j : Nat)
    (s : String) (i : Nat) :
    kgetNat (updateChoice st j s) i =
      if j = i then
        match kgetNat st i with
        | some t => some (t ++ s)
        | none => some s
      else kgetNat st i := by
  induction st with
  | nil => by_cases h : j = i <;> simp [updateChoice, kgetNat, h]
  | cons p rest ih =>
      obtain ⟨a, b⟩ := p
      by_cases haj : a = j
      · subst haj
        by_cases hai : a = i <;> simp [updateChoice, kgetNat, hai]
      · by_cases hai : a = i
        · subst hai
          have hji : ¬ j = a := fun h => haj h.symm
          simp [updateChoice, haj, kgetNat, hji]
        · simp [updateChoice, haj, kgetNat, hai, ih]

theorem deltasFor_cons (j : Nat) (s : String) (rest : List (Nat × String))
    (i : Nat) :
    deltasFor ((j, s) :: rest) i =
      if j = i then s :: deltasFor rest i else deltasFor rest i := by
  by_cases h : j = i <;> simp [deltasFor, h]

theorem kgetNat_foldl_step (ps : List (Nat × String))
    (st : List (Nat × String)) (i : Nat) :
    kgetNat (ps.foldl stepChoice st) i =
      mergeAcc (kgetNat st i) (deltasFor ps i) := by
  induction ps generalizing st with
  | nil =>
      cases h : kgetNat st i <;>
        simp [deltasFor, mergeAcc, h, concatAll, String.append_empty]
  | cons p rest ih =>
      obtain ⟨j, s⟩ := p
      simp only [List.foldl_cons]
      rw [ih, deltasFor_cons]
      show mergeAcc (kgetNat (updateChoice st j s) i) (deltasFor rest i) = _
      rw [kgetNat_updateChoice]
      by_cases hji : j = i
      · subst hji
        cases h : kgetNat st j with
        | none =>
            simp [h, mergeAcc, concatAll_cons]
        | some t =>
            simp [h, mergeAcc, concatAll_cons, String.append_assoc]
      · simp [hji]

theorem gatherChunks_eq_foldl (chunks : List Chunk) :
    gatherChunks chunks =
      (chunks.flatMap (fun c => c)).foldl stepChoice [] := by
  suffices h : ∀ (ls : List Chunk) (st : List (Nat × String)),
      ls.foldl feedChunk st = (ls.flatMap (fun c => c)).foldl stepChoice st by
    exact h chunks []
  intro ls
  induction ls with
  | nil => intro st; rfl
  | cons c rest ih =>
      intro st
      simp [List.flatMap_cons, List.foldl_append, feedChunk, ih]

theorem kgetNat_gatherChunks (chunks : List Chunk) (i : Nat) :
    kgetNat (gatherChunks chunks) i =
      if deltasFor (chunks.flatMap (fun c => c)) i = [] then none
      else some (concatDeltas chunks i) := by
  rw [gatherChunks_eq_foldl, kgetNat_foldl_step]
  simp [mergeAcc, kgetNat, concatDeltas]

theorem kgetNat_eq_none_iff (st : List (Nat × String)) (i : Nat) :
    kgetNat st i = none ↔ i ∉ keysOf st := by
  induction st with
  | nil => simp [kgetNat, keysOf]
  | cons p rest ih =>
      obtain ⟨j, t⟩ := p
      show (if j = i then some t else kgetNat rest i) = none ↔
        i ∉ j :: keysOf rest
      by_cases h : j = i
      · subst h; simp
      · have hij : ¬ i = j := fun hh => h hh.symm
        rw [if_neg h, ih]
        simp [hij]

theorem keysOf_updateChoice (st : List (Nat × String)) (j : Nat)
    (s : String) :
    keysOf (updateChoice st j s) =
      if kgetNat st j = none then keysOf st ++ [j] else keysOf st := by
  induction st with
  | nil => simp [updateChoice, keysOf, kgetNat]
  | cons p rest ih =>
      obtain ⟨a, b⟩ := p
      by_cases h : a = j
      · subst h; simp [updateChoice, kgetNat, keysOf]
      · have h1 : updateChoice ((a, b) :: rest) j s
            = (a, b) :: updateChoice rest j s := by simp [updateChoice, h]
        have h2 : kgetNat ((a, b) :: rest) j = kgetNat rest j := by
          simp [kgetNat, h]
        rw [h1, h2]
        show a :: keysOf (updateChoice rest j s) = _
        rw [ih]
        by_cases hk : kgetNat rest j = none <;> simp [hk, keysOf]

theorem nodup_keys_updateChoice (st : List (Nat × String)) (j : Nat)
    (s : String) (h : (keysOf st).Nodup) :
    (keysOf (updateChoice st j s)).Nodup := by
  rw [keysOf_updateChoice]
  by_cases hk : kgetNat st j = none
  · have hj : j ∉ keysOf st := (kgetNat_eq_none_iff st j).mp hk
    simp [hk, List.nodup_append, h, hj]
  · simp [hk, h]

theorem nodup_keys_foldl (ps : List (Nat × String))
    (st : List (Nat × String)) (h : (keysOf st).Nodup) :
    (keysOf (ps.foldl stepChoice st)).Nodup := by
  induction ps generalizing st with
  | nil => exact h
  | cons p rest ih => exact ih _ (nodup_keys_updateChoice _ _ _ h)

theorem nodup_keys_gatherChunks (chunks : List Chunk) :
    (keysOf (gatherChunks chunks)).Nodup := by
  rw [gatherChunks_eq_foldl]
  exact nodup_keys_foldl _ _ (by simp [keysOf])

theorem kgetNat_of_mem (st : List (Nat × String)) (p : Nat × String) :
    p ∈ st → (keysOf st).Nodup → kgetNat st p.1 = some p.2 := by
  induction st with
  | nil => intro hmem _; cases hmem
  | cons q rest ih =>
      intro hmem h
      obtain ⟨a, b⟩ := q
      have hnd : a ∉ keysOf rest ∧ (keysOf rest).Nodup :=
        List.nodup_cons.mp h
      rcases List.mem_cons.mp hmem with heq | hmem2
      · subst heq; simp [kgetNat]
      · by_cases hap : a = p.1
        · exfalso
          apply hnd.1
          rw [hap]
          exact List.mem_map_of_mem Prod.fst hmem2
        · simp [kgetNat, hap, ih hmem2 hnd.2]

theorem gatherChunks_entries (chunks : List Chunk) (p : Nat × String)
    (hmem : p ∈ gatherChunks chunks) : p.2 = concatDeltas chunks p.1 := by
  have h1 := kgetNat_of_mem _ p hmem (nodup_keys_gatherChunks chunks)
  rw [kgetNat_gatherChunks] at h1
  by_cases h : deltasFor (chunks.flatMap (fun c => c)) p.1 = []
  · simp [h] at h1
  · simp [h] at h1
    exact h1.symm

theorem gatherChunks_all_text (chunks : List Chunk) :
    (gatherChunks chunks).all
      (fun p => p.2 == concatDeltas chunks p.1) = true := by
  rw [List.all_eq_true]
  intro p hp
  exact beq_iff_eq.mpr (gatherChunks_entries chunks p hp)

theorem kget_setKey_self (l : List (String × Val)) (k : String) (v : Val) :
    kget (setKey l k v) k = some v := by
  induction l with
  | nil => simp [setKey, kget]
  | cons p rest ih =>
      obtain ⟨a, b⟩ := p
      by_cases hak : a = k
      · simp [setKey, kget, hak]
      · by_cases h : (kget rest k).isSome
        · have hmap := ih
          simp only [setKey, if_pos h] at hmap
          simp only [setKey, kget, if_neg hak, h, if_pos h, List.map_cons]
          simp [hak, hmap]
        · have hn : kget rest k = none := Option.not_isSome_iff_eq_none.mp h
          simp only [setKey, kget, if_neg hak, h, hn]
          simp [hak, kget_append, hn, kget]

theorem streamDoneResponse_usage (S : StreamCollab)
    (kwargs : List (String × Val)) (chunks : List Chunk) :
    (streamDoneResponse S kwargs (synthResponse S.finalChoice chunks)).item
        "usage" =
      some (S.getUsage (S.modelParam kwargs) (S.promptTexts kwargs)
        (S.responseTexts (synthResponse S.finalChoice chunks))) := by
  simp [streamDoneResponse, dictMergeOne, synthResponse, Val.item,
    kget_setKey_self]

/-- C1: for every non-streaming call, and every streaming call that fails
while establishing the stream, in which the underlying create target
raises, the wrapper emits exactly one exception record whose
`is_exception` field is true and which has no `response` field (given that
`avoid_monitoring_exceptions` is not set and the sampling gate passes),
and re-raises the original exception unchanged — same kind, same message,
never wrapped, never swallowed. -/
theorem c1_exception_record_and_reraise (rate : ℚ) (C : Collab)
    (apiName : String) (isAsync : Bool)
    (superFn : List (String × Val) → Except Exn Val)
    (superStreamFn : List (String × Val) → Except Exn (List Chunk))
    (kwargs : List (String × Val)) (e : Exn) (st lt draw : ℚ)
    (hfn : superFn (forwardedKwargs kwargs) = .error e)
    (hsfn : superStreamFn (forwardedKwargs kwargs) = .error e)
    (hclean : C.messageCleaner = id)
    (hemit : shouldEmit rate draw = true) :
    innerCreate rate false C apiName isAsync superFn superStreamFn kwargs
        st lt draw =
      (.raised e,
       [innerLogCall C apiName kwargs st true isAsync none Val.null lt]) ∧
    kget (innerLogCall C apiName kwargs st true isAsync none Val.null
        lt).message "is_exception" = some (Val.bool true) ∧
    kget (innerLogCall C apiName kwargs st true isAsync none Val.null
        lt).message "response" = none := by
  refine ⟨?_, ?_, ?_⟩
  · unfold innerCreate
    by_cases hs : isStreamCall kwargs <;>
      simp [hs, hfn, hsfn, sampledLogs_pass _ _ _ hemit]
  · simp [innerLogCall, hclean, cls_get_logging_message,
      kget_raw_is_exception]
  · simp [innerLogCall, hclean, cls_get_logging_message, kget_raw_response,
      Val.truthy]

/-- Witness for C1: a concrete non-streaming call whose underlying target
raises `RateLimitError("slow down")`. -/
theorem c1_witness :
    innerCreate 1 false collabId "Completion" false sfnErr ssfnErr
        kwargsPlain 0 1 0 =
      (.raised { kind := "RateLimitError", msg := "slow down" },
       [innerLogCall collabId "Completion" kwargsPlain 0 true false none
          Val.null 1]) ∧
    kget (innerLogCall collabId "Completion" kwargsPlain 0 true false none
        Val.null 1).message "is_exception" = some (Val.bool true) ∧
    kget (innerLogCall collabId "Completion" kwargsPlain 0 true false none
        Val.null 1).message "response" = none :=
  c1_exception_record_and_reraise 1 collabId "Completion" false sfnErr
    ssfnErr kwargsPlain { kind := "RateLimitError", msg := "slow down" }
    0 1 0 rfl rfl rfl (by decide)

/-- C3: monitoring-only argument keys (the reserved `MONA_` marker) never
appear among the arguments forwarded to the underlying target nor in the
`input` field of the assembled record; they are routed instead to the
record's `additional_data` field and to the explicit context-id and
export-timestamp logging parameters. -/
theorem c3_reserved_keys_stripped_and_routed (C : Collab) (apiName : String)
    (kwargs : List (String × Val)) (st : ℚ) (isE isA : Bool)
    (sst : Option ℚ) (resp : Val) (now : ℚ) :
    (forwardedKwargs kwargs).all
        (fun p => !(p.1.startsWith MONA_ARGS_MARKER)) = true ∧
    kget (cls_get_logging_message apiName C.analysisGetter kwargs st isE isA
        sst resp now) "input" = some (Val.obj (stripMonaArgs kwargs)) ∧
    (stripMonaArgs kwargs).all
        (fun p => !(p.1.startsWith MONA_ARGS_MARKER)) = true ∧
    kget (cls_get_logging_message apiName C.analysisGetter kwargs st isE isA
        sst resp now) "additional_data" =
      (if (kgetD kwargs ADDITIONAL_DATA_ARG_NAME (Val.obj [])).truthy then
        some (kgetD kwargs ADDITIONAL_DATA_ARG_NAME (Val.obj []))
       else none) ∧
    (innerLogCall C apiName kwargs st isE isA sst resp now).contextId =
      kgetD kwargs CONTEXT_ID_ARG_NAME
        (if resp.truthy then (resp.item "id").getD Val.null
         else Val.null) ∧
    (innerLogCall C apiName kwargs st isE isA sst resp now).exportTimestamp
      = kgetD kwargs EXPORT_TIMESTAMP_ARG_NAME (Val.num st) := by
  refine ⟨?_, ?_, ?_, ?_, rfl, rfl⟩
  · rw [List.all_eq_true]
    intro p hp
    exact (List.mem_filter.mp hp).2
  · simp [cls_get_logging_message, kget_raw_input]
  · rw [List.all_eq_true]
    intro p hp
    exact (List.mem_filter.mp hp).2
  · simp [cls_get_logging_message, kget_raw_additional_data]

/-- Witness for C3: concrete kwargs carrying reserved monitoring keys. -/
theorem c3_witness :
    (forwardedKwargs kwargsFix).all
        (fun p => !(p.1.startsWith MONA_ARGS_MARKER)) = true ∧
    kget (cls_get_logging_message "Completion" collabId.analysisGetter
        kwargsFix 0 false false none Val.null 1) "input" =
      some (Val.obj (stripMonaArgs kwargsFix)) ∧
    (stripMonaArgs kwargsFix).all
        (fun p => !(p.1.startsWith MONA_ARGS_MARKER)) = true ∧
    kget (cls_get_logging_message "Completion" collabId.analysisGetter
        kwargsFix 0 false false none Val.null 1) "additional_data" =
      (if (kgetD kwargsFix ADDITIONAL_DATA_ARG_NAME (Val.obj [])).truthy then
        some (kgetD kwargsFix ADDITIONAL_DATA_ARG_NAME (Val.obj []))
       else none) ∧
    (innerLogCall collabId "Completion" kwargsFix 0 false false none
        Val.null 1).contextId =
      kgetD kwargsFix CONTEXT_ID_ARG_NAME
        (if Val.null.truthy then (Val.null.item "id").getD Val.null
         else Val.null) ∧
    (innerLogCall collabId "Completion" kwargsFix 0 false false none
        Val.null 1).exportTimestamp =
      kgetD kwargsFix EXPORT_TIMESTAMP_ARG_NAME (Val.num 0) :=
  c3_reserved_keys_stripped_and_routed collabId "Completion" kwargsFix 0
    false false none Val.null 1

/-- C10: when no `MONA_context_id` argument is supplied, the context id
passed to the logger is the `id` field of the response for success records
and null for exception records (no response); when no
`MONA_export_timestamp` argument is supplied, the export timestamp passed
to the logger is the call's recorded start time. -/
theorem c10_context_id_and_timestamp_defaults (C : Collab)
    (apiName : String) (kwargs : List (String × Val)) (st : ℚ)
    (isE isA : Bool) (sst : Option ℚ) (resp : Val) (now : ℚ) (idv : Val)
    (hnoctx : kget kwargs CONTEXT_ID_ARG_NAME = none)
    (hnots : kget kwargs EXPORT_TIMESTAMP_ARG_NAME = none) :
    (resp.truthy = true → resp.item "id" = some idv →
      (innerLogCall C apiName kwargs st isE isA sst resp now).contextId
        = idv) ∧
    (innerLogCall C apiName kwargs st isE isA sst Val.null now).contextId
      = Val.null ∧
    (innerLogCall C apiName kwargs st isE isA sst resp now).exportTimestamp
      = Val.num st := by
  refine ⟨?_, ?_, ?_⟩
  · intro ht hid
    simp [innerLogCall, kgetD, hnoctx, ht, hid]
  · simp [innerLogCall, kgetD, hnoctx, Val.truthy]
  · simp [innerLogCall, kgetD, hnots]

/-- Witness for C10: a call without monitoring-only arguments, whose
response carries `id = "r1"`. -/
theorem c10_witness :
    ((Val.obj [("id", Val.str "r1")]).truthy = true →
      (Val.obj [("id", Val.str "r1")]).item "id" = some (Val.str "r1") →
      (innerLogCall collabId "Completion" kwargsPlain 0 false false none
          (Val.obj [("id", Val.str "r1")]) 1).contextId = Val.str "r1") ∧
    (innerLogCall collabId "Completion" kwargsPlain 0 false false none
        Val.null 1).contextId = Val.null ∧
    (innerLogCall collabId "Completion" kwargsPlain 0 false false none
        (Val.obj [("id", Val.str "r1")]) 1).exportTimestamp = Val.num 0 :=
  c10_context_id_and_timestamp_defaults collabId "Completion" kwargsPlain 0
    false false none (Val.obj [("id", Val.str "r1")]) 1 (Val.str "r1")
    rfl rfl

/-- C5 counterexample: at a concrete non-streamed call (no stream start
time) the built logging message still carries the `stream_start_latency`
key, with a null value — the field is not omitted as the claim states. -/
theorem c5_counterexample :
    kget (rawLoggingMessage "Completion" [] 0 false false none Val.null
      agNull Val.null 1) "stream_start_latency" = some Val.null ∧
    ¬ (kget (rawLoggingMessage "Completion" [] 0 false false none Val.null
      agNull Val.null 1) "stream_start_latency" = none) := by
  refine ⟨?_, ?_⟩ <;> simp [kget_raw_stream_start_latency]

/-- C5 (amended): the built logging message always contains the
`stream_start_latency` key: its value is `streamStartTime - startTime`
when a stream start time is present, and null (the field is present, not
omitted) when no stream start time is present. -/
theorem c5_stream_start_latency_field (apiName : String)
    (ri : List (String × Val)) (st : ℚ) (isE isA : Bool) (sst : Option ℚ)
    (resp : Val) (ag : List (String × Val) → Val → Val) (ad : Val)
    (now : ℚ) :
    kget (rawLoggingMessage apiName ri st isE isA sst resp ag ad now)
      "stream_start_latency" =
      some (match sst with
            | some t => Val.num (t - st)
            | none => Val.null) :=
  kget_raw_stream_start_latency apiName ri st isE isA sst resp ag ad now

/-- Witness for the amended C5: a concrete streamed and a concrete
non-streamed message. -/
theorem c5_witness :
    kget (rawLoggingMessage "Completion" [] 0 false false (some 1) Val.null
      agNull Val.null 2) "stream_start_latency" = some (Val.num 1) := by
  have h := c5_stream_start_latency_field "Completion" [] 0 false false
    (some 1) Val.null agNull Val.null 2
  simpa using h

/-- C6: whenever both `latency` and `stream_start_latency` are present in
the built message (every streamed successful call, where the stream start
time lies before the message-assembly time), the stream start latency is
at most the latency. -/
theorem c6_stream_start_latency_le_latency (apiName : String)
    (ri : List (String × Val)) (st : ℚ) (isE isA : Bool) (resp : Val)
    (ag : List (String × Val) → Val → Val) (ad : Val) (t now a b : ℚ)
    (hle : t ≤ now)
    (hssl : kget (rawLoggingMessage apiName ri st isE isA (some t) resp ag
      ad now) "stream_start_latency" = some (Val.num a))
    (hlat : kget (rawLoggingMessage apiName ri st isE isA (some t) resp ag
      ad now) "latency" = some (Val.num b)) :
    a ≤ b := by
  rw [kget_raw_stream_start_latency] at hssl
  rw [kget_raw_latency] at hlat
  simp only [Option.some.injEq] at hssl hlat
  have ha : t - st = a := by
    cases hssl
    rfl
  have hb : now - st = b := by
    cases hlat
    rfl
  linarith

/-- Witness for C6: stream start at time 1, assembly at time 2, start time
0: stream start latency 1 is at most latency 2. -/
theorem c6_witness : ((1 : ℚ) ≤ 2) ∧ ((1 : ℚ) ≤ (2 : ℚ)) :=
  ⟨by norm_num,
   c6_stream_start_latency_le_latency "Completion" [] 0 false false
     Val.null agNull Val.null 1 2 1 2 (by norm_num)
     (by rw [kget_raw_stream_start_latency]; norm_num)
     (by rw [kget_raw_latency]; norm_num)⟩

/-- C8 counterexample: a call supplying an empty `MONA_additional_data`
mapping; the empty mapping is falsy, so the `additional_data` field is
omitted from the built record rather than appearing verbatim. -/
theorem c8_counterexample :
    kget kwargsEmptyAdd ADDITIONAL_DATA_ARG_NAME = some (Val.obj []) ∧
    ¬ (kget (cls_get_logging_message "Completion" agNull kwargsEmptyAdd 0
        false false none Val.null 1) "additional_data" =
      some (Val.obj [])) := by
  constructor
  · rfl
  · intro h
    simp only [cls_get_logging_message, kget_raw_additional_data] at h
    exact Option.noConfusion h

/-- C8 (amended): for every call supplying a non-empty
`MONA_additional_data` mapping, that mapping appears verbatim as the
`additional_data` field of the built record (a supplied empty mapping is
falsy and the field is omitted). -/
theorem c8_additional_data_verbatim (apiName : String)
    (ag : List (String × Val) → Val → Val) (kwargs : List (String × Val))
    (st : ℚ) (isE isA : Bool) (sst : Option ℚ) (resp : Val) (now : ℚ)
    (l : List (String × Val)) (hne : l ≠ [])
    (hsup : kget kwargs ADDITIONAL_DATA_ARG_NAME = some (Val.obj l)) :
    kget (cls_get_logging_message apiName ag kwargs st isE isA sst resp
      now) "additional_data" = some (Val.obj l) := by
  have had : kgetD kwargs ADDITIONAL_DATA_ARG_NAME (Val.obj []) =
      Val.obj l := by
    simp [kgetD, hsup]
  have ht : (Val.obj l).truthy = true := by
    cases l with
    | nil => exact absurd rfl hne
    | cons p rest => simp [Val.truthy]
  simp only [cls_get_logging_message, had, kget_raw_additional_data,
    if_pos ht]

/-- Witness for the amended C8: a concrete non-empty additional-data
mapping appears verbatim in the built record. -/
theorem c8_witness :
    kget (cls_get_logging_message "Completion" agNull kwargsFix 0 false
      false none Val.null 1) "additional_data" =
      some (Val.obj [("customer_id", Val.str "A531251")]) :=
  c8_additional_data_verbatim "Completion" agNull kwargsFix 0 false false
    none Val.null 1 [("customer_id", Val.str "A531251")]
    (fun h => List.noConfusion h) rfl

/-- C9: the blocking bridge `run_in_an_event_loop` resolves in order —
with no active scheduler it starts one and runs the task (fresh run); with
an active but idle scheduler it drives that scheduler directly; with a
scheduler already driving other work it installs the reentrancy allowance
and runs the task nested to completion — and in every case returns the
task's value, so the blocking entry point invoked from inside an
already-running scheduler returns the same result as from a plain
context. -/
theorem c9_event_loop_resolution (v : α) :
    run_in_an_event_loop SchedulerState.noScheduler v
      = (BridgePath.freshRun, v) ∧
    run_in_an_event_loop SchedulerState.idleScheduler v
      = (BridgePath.driveExisting, v) ∧
    run_in_an_event_loop SchedulerState.busyScheduler v
      = (BridgePath.nestedRun, v) ∧
    (run_in_an_event_loop SchedulerState.busyScheduler v).2
      = (run_in_an_event_loop SchedulerState.noScheduler v).2 :=
  ⟨rfl, rfl, rfl, rfl⟩

/-- Witness for C9 at a concrete task value. -/
theorem c9_witness :
    run_in_an_event_loop SchedulerState.noScheduler (42 : ℕ)
      = (BridgePath.freshRun, 42) ∧
    run_in_an_event_loop SchedulerState.idleScheduler (42 : ℕ)
      = (BridgePath.driveExisting, 42) ∧
    run_in_an_event_loop SchedulerState.busyScheduler (42 : ℕ)
      = (BridgePath.nestedRun, 42) ∧
    (run_in_an_event_loop SchedulerState.busyScheduler (42 : ℕ)).2
      = (run_in_an_event_loop SchedulerState.noScheduler (42 : ℕ)).2 :=
  c9_event_loop_resolution 42

/-- C7: the sampling gate emits iff the uniform draw in `[0,1)` is
strictly below the configured ratio — ratio 1 always emits, ratio 0 never
emits (no record for the whole call attempt) — and the skipped emission
leaves the primary call's result or exception untouched: the returned
component of `innerCreate` does not depend on the sampling ratio. -/
theorem c7_sampling_gate (draw sdraw : ℚ) (hd0 : 0 ≤ draw)
    (hd1 : draw < 1) (hs0 : 0 ≤ sdraw) (C : Collab) (S : StreamCollab)
    (apiName : String) (isAsync : Bool)
    (superFn : List (String × Val) → Except Exn Val)
    (superStreamFn : List (String × Val) → Except Exn (List Chunk))
    (kwargs : List (String × Val)) (avoidExc : Bool)
    (st lt fct slt r1 r2 : ℚ) :
    shouldEmit 1 draw = true ∧
    shouldEmit 0 draw = false ∧
    wholeCallLogs 0 avoidExc C S apiName isAsync superFn superStreamFn
      kwargs st lt draw fct slt sdraw = [] ∧
    (innerCreate r1 avoidExc C apiName isAsync superFn superStreamFn
      kwargs st lt draw).1 =
    (innerCreate r2 avoidExc C apiName isAsync superFn superStreamFn
      kwargs st lt draw).1 := by
  have e1 : shouldEmit 1 draw = true := by simpa [shouldEmit] using hd1
  have e0 : shouldEmit 0 draw = false := by
    simp only [shouldEmit, decide_eq_false_iff_not]
    exact not_lt.mpr hd0
  have e0s : shouldEmit 0 sdraw = false := by
    simp only [shouldEmit, decide_eq_false_iff_not]
    exact not_lt.mpr hs0
  refine ⟨e1, e0, ?_, ?_⟩
  · unfold wholeCallLogs innerCreate
    by_cases hs : isStreamCall kwargs
    · cases hsfn : superStreamFn (forwardedKwargs kwargs) with
      | ok chunks =>
          simp [hs, hsfn, consumeStream, streamDoneLogs,
            sampledLogs_skip _ _ _ e0s]
      | error e =>
          cases avoidExc <;> simp [hs, hsfn, sampledLogs_skip _ _ _ e0]
    · cases hfn : superFn (forwardedKwargs kwargs) with
      | ok v => simp [hs, hfn, sampledLogs_skip _ _ _ e0]
      | error e =>
          cases avoidExc <;> simp [hs, hfn, sampledLogs_skip _ _ _ e0]
  · unfold innerCreate
    by_cases hs : isStreamCall kwargs
    · cases hsfn : superStreamFn (forwardedKwargs kwargs) <;>
        simp [hs, hsfn]
    · cases hfn : superFn (forwardedKwargs kwargs) <;> simp [hs, hfn]

/-- Witness for C7 at a concrete call with ratio 0: nothing emitted and
the same primary result as with ratio 1. -/
theorem c7_witness :
    shouldEmit 1 (1 / 2 : ℚ) = true ∧
    shouldEmit 0 (1 / 2 : ℚ) = false ∧
    wholeCallLogs 0 false collabId streamCollabFix "Completion" false
      sfnOk ssfnOk kwargsPlain 0 1 (1 / 2) 0 2 (1 / 2) = [] ∧
    (innerCreate 0 false collabId "Completion" false sfnOk ssfnOk
      kwargsPlain 0 1 (1 / 2)).1 =
    (innerCreate 1 false collabId "Completion" false sfnOk ssfnOk
      kwargsPlain 0 1 (1 / 2)).1 :=
  c7_sampling_gate (1 / 2) (1 / 2) (by norm_num) (by norm_num)
    (by norm_num) collabId streamCollabFix "Completion" false sfnOk ssfnOk
    kwargsPlain false 0 1 0 2 0 1

/-- C4: for every call attempt made with sampling ratio 1 — a
non-streaming call (success or exception), a streaming call failing at
establishment, or a streaming call whose returned iterator the caller
consumes to exhaustion — exactly one analysis record is emitted, a success
record or an exception record, never both (exception monitoring not
suppressed; uniform draws lie below 1). -/
theorem c4_exactly_one_record (C : Collab) (S : StreamCollab)
    (apiName : String) (isAsync : Bool)
    (superFn : List (String × Val) → Except Exn Val)
    (superStreamFn : List (String × Val) → Except Exn (List Chunk))
    (kwargs : List (String × Val)) (st lt draw fct slt sdraw : ℚ)
    (hd : draw < 1) (hsd : sdraw < 1) :
    (wholeCallLogs 1 false C S apiName isAsync superFn superStreamFn
      kwargs st lt draw fct slt sdraw).length = 1 := by
  have h1 : shouldEmit 1 draw = true := by simpa [shouldEmit] using hd
  have h2 : shouldEmit 1 sdraw = true := by simpa [shouldEmit] using hsd
  unfold wholeCallLogs innerCreate
  by_cases hs : isStreamCall kwargs
  · cases hsfn : superStreamFn (forwardedKwargs kwargs) with
    | ok chunks =>
        simp [hs, hsfn, consumeStream, streamDoneLogs,
          sampledLogs_pass _ _ _ h2]
    | error e => simp [hs, hsfn, sampledLogs_pass _ _ _ h1]
  · cases hfn : superFn (forwardedKwargs kwargs) with
    | ok v => simp [hs, hfn, sampledLogs_pass _ _ _ h1]
    | error e => simp [hs, hfn, sampledLogs_pass _ _ _ h1]

/-- Witness for C4: a concrete streaming call attempt consumed to
exhaustion emits exactly one record. -/
theorem c4_witness :
    ((0 : ℚ) < 1) ∧
    (wholeCallLogs 1 false collabId streamCollabFix "Completion" false
      sfnOk ssfnOk kwargsStream 0 1 0 0 2 0).length = 1 :=
  ⟨by norm_num,
   c4_exactly_one_record collabId streamCollabFix "Completion" false sfnOk
     ssfnOk kwargsStream 0 1 0 0 2 0 (by norm_num) (by norm_num)⟩

/-- C2: for every streaming call, the caller receives exactly the chunks
of the underlying source sequence, unmodified and none dropped, through
the returned gathering iterator; when the caller exhausts the sequence the
completion callback fires exactly once, emitting one record whose
synthesized response carries, for each choice index, the concatenation of
that choice's partial delta texts in arrival order, plus a usage field
computed by the external usage computer. -/
theorem c2_stream_passthrough_and_synthesis (rate : ℚ) (C : Collab)
    (S : StreamCollab) (apiName : String) (isAsync : Bool)
    (superFn : List (String × Val) → Except Exn Val)
    (superStreamFn : List (String × Val) → Except Exn (List Chunk))
    (kwargs : List (String × Val)) (chunks : List Chunk)
    (st lt draw fct slt sdraw : ℚ)
    (hstream : isStreamCall kwargs = true)
    (hok : superStreamFn (forwardedKwargs kwargs) = .ok chunks)
    (hclean : C.messageCleaner = id)
    (hemit : shouldEmit rate sdraw = true) :
    innerCreate rate false C apiName isAsync superFn superStreamFn kwargs
        st lt draw = (.streamed chunks, []) ∧
    (consumeStream S.finalChoice chunks fct).yielded = chunks ∧
    (consumeStream S.finalChoice chunks fct).callbackCalls =
      [(synthResponse S.finalChoice chunks,
        if chunks.isEmpty then none else some fct)] ∧
    wholeCallLogs rate false C S apiName isAsync superFn superStreamFn
        kwargs st lt draw fct slt sdraw =
      [innerLogCall C apiName kwargs st false isAsync
        (if chunks.isEmpty then none else some fct)
        (streamDoneResponse S kwargs (synthResponse S.finalChoice chunks))
        slt] ∧
    kget (innerLogCall C apiName kwargs st false isAsync
        (if chunks.isEmpty then none else some fct)
        (streamDoneResponse S kwargs (synthResponse S.finalChoice chunks))
        slt).message "response" =
      some (streamDoneResponse S kwargs
        (synthResponse S.finalChoice chunks)) ∧
    (streamDoneResponse S kwargs
        (synthResponse S.finalChoice chunks)).item "usage" =
      some (S.getUsage (S.modelParam kwargs) (S.promptTexts kwargs)
        (S.responseTexts (synthResponse S.finalChoice chunks))) ∧
    synthResponse S.finalChoice chunks =
      Val.obj [("choices", Val.arr ((gatherChunks chunks).map
        (fun p => S.finalChoice p.1 p.2)))] ∧
    (gatherChunks chunks).all
      (fun p => p.2 == concatDeltas chunks p.1) = true := by
  have hinner : innerCreate rate false C apiName isAsync superFn
      superStreamFn kwargs st lt draw = (.streamed chunks, []) := by
    unfold innerCreate
    simp [hstream, hok]
  have htr : (streamDoneResponse S kwargs
      (synthResponse S.finalChoice chunks)).truthy = true := by
    simp [streamDoneResponse, dictMergeOne, synthResponse, setKey, kget,
      Val.truthy]
  refine ⟨hinner, rfl, rfl, ?_, ?_,
    streamDoneResponse_usage S kwargs chunks, rfl,
    gatherChunks_all_text chunks⟩
  · unfold wholeCallLogs
    rw [hinner]
    simp [consumeStream, streamDoneLogs, sampledLogs_pass _ _ _ hemit]
  · simp [innerLogCall, hclean, cls_get_logging_message, kget_raw_response,
      htr]

/-- Witness for C2: spec §8 Scenario C — four chunks appending "a", "b",
"c", "d" to choice 0 pass through unmodified and one record is emitted
with the synthesized response and its computed usage field. -/
theorem c2_witness :
    innerCreate 1 false collabId "Completion" false sfnOk ssfnOk
        kwargsStream 0 1 0 = (.streamed chunks4, []) ∧
    (consumeStream streamCollabFix.finalChoice chunks4 1).yielded
      = chunks4 ∧
    (consumeStream streamCollabFix.finalChoice chunks4 1).callbackCalls =
      [(synthResponse streamCollabFix.finalChoice chunks4,
        if chunks4.isEmpty then none else some 1)] ∧
    wholeCallLogs 1 false collabId streamCollabFix "Completion" false
        sfnOk ssfnOk kwargsStream 0 1 0 1 2 0 =
      [innerLogCall collabId "Completion" kwargsStream 0 false false
        (if chunks4.isEmpty then none else some 1)
        (streamDoneResponse streamCollabFix kwargsStream
          (synthResponse streamCollabFix.finalChoice chunks4)) 2] ∧
    kget (innerLogCall collabId "Completion" kwargsStream 0 false false
        (if chunks4.isEmpty then none else some 1)
        (streamDoneResponse streamCollabFix kwargsStream
          (synthResponse streamCollabFix.finalChoice chunks4))
        2).message "response" =
      some (streamDoneResponse streamCollabFix kwargsStream
        (synthResponse streamCollabFix.finalChoice chunks4)) ∧
    (streamDoneResponse streamCollabFix kwargsStream
        (synthResponse streamCollabFix.finalChoice chunks4)).item "usage" =
      some (streamCollabFix.getUsage
        (streamCollabFix.modelParam kwargsStream)
        (streamCollabFix.promptTexts kwargsStream)
        (streamCollabFix.responseTexts
          (synthResponse streamCollabFix.finalChoice chunks4))) ∧
    synthResponse streamCollabFix.finalChoice chunks4 =
      Val.obj [("choices", Val.arr ((gatherChunks chunks4).map
        (fun p => streamCollabFix.finalChoice p.1 p.2)))] ∧
    (gatherChunks chunks4).all
      (fun p => p.2 == concatDeltas chunks4 p.1) = true :=
  c2_stream_passthrough_and_synthesis 1 collabId streamCollabFix
    "Completion" false sfnOk ssfnOk kwargsStream chunks4 0 1 0 1 2 0
    rfl rfl rfl (by decide)

end MonaOpenAI
